import Mathlib

/-!
# SponsorStream: verification of the match pipeline core

A shallow embedding of the SponsorStream matching core, translated from
the repository source:

* `src/sponsorstream/domain/policy_engine.py` (tokenization, schedule
  parsing, `PolicyEngine.apply` / `reason` / `_allowed` /
  `_blocked_keywords_intersect`);
* `src/sponsorstream/modules/pacing/engine.py`
  (`BudgetPacingEngine.evaluate`);
* `src/sponsorstream/services/match_service.py` (the candidate-building
  loop of `MatchService.match` and `_hit_to_candidate`);
* `src/sponsorstream_mcp/adapters/qdrant_vector_store.py`
  (`_translate_condition`, `_translate_filter`, `_ensure_enabled_filter`
  and the filter used by `query`).

Modelling conventions.  Python strings are `List Char` (`Str`); Python
floats are `ℚ` (the claims under study concern the algebraic structure of
the arithmetic — clamps, products, maxima — not IEEE rounding); Python
`datetime` instants normalized to UTC are `Int` timestamps;
`datetime.fromisoformat` together with the UTC normalization of
`_parse_iso` is an opaque parameter `fromiso : Str → Option Int`
(`none` models a `ValueError`); the wall clock `datetime.now(timezone.utc)`
is a parameter `now : Int`.  Dictionary payloads are modelled at two
levels: a typed attribute bag `Payload` with `Option` fields (a missing
key is `none`, matching `dict.get` with a default), and — for the
robustness analysis of malformed payloads — a dynamically typed model
`PyVal` in namespace `Dyn` that tracks Python's runtime `TypeError` /
`AttributeError` behaviour.
-/

namespace SponsorStream

/-- Python strings, modelled as lists of characters. -/
abbrev Str := List Char

/-- Python `str.lower()`, modelled character-wise. -/
def lowerStr (s : Str) : Str := s.map Char.toLower

/-- `strStartsWith hay needle = true` iff `needle` is a prefix of `hay`. -/
def strStartsWith : Str → Str → Bool
  | _, [] => true
  | [], _ :: _ => false
  | c :: cs, d :: ds => (c == d) && strStartsWith cs ds

/-- Python's substring test `needle in hay` on strings:
`strContains hay needle = true` iff `needle` occurs contiguously in
`hay` (the empty needle occurs in every string). -/
def strContains : Str → Str → Bool
  | [], needle => needle.isEmpty
  | c :: rest, needle => strStartsWith (c :: rest) needle || strContains rest needle

/-- Word-splitting worker: `acc` holds the characters of the word in
progress, in reverse. -/
def wsWordsAux : Str → Str → List Str
  | [], acc => if acc.isEmpty then [] else [acc.reverse]
  | c :: rest, acc =>
    if c.isWhitespace then
      if acc.isEmpty then wsWordsAux rest []
      else acc.reverse :: wsWordsAux rest []
    else wsWordsAux rest (c :: acc)

/-- Split a string into its maximal whitespace-free words, dropping the
empty fragments: the effect of `re.split(r"\s+", text.strip())` followed
by the `if t` filter in `_tokenize_context`. -/
def wsWords (s : Str) : List Str := wsWordsAux s []

/-- `_tokenize_context` (policy_engine.py:14): split the context on any
whitespace run and lower-case each token.  The source builds a Python
set; only membership and existential traversal are ever used, so the
token list models it faithfully. -/
def tokenize_context (s : Str) : List Str := (wsWords s).map lowerStr

/-- The creative payload stored in the vector index, as the typed
attribute bag read by the policy, pacing and match services.  Each field
is `Option`-valued: `none` models a missing dictionary key, so
`dict.get(k, default)` becomes `Option.getD`.  (Field set from the uses
in `policy_engine.py`, `pacing/engine.py` and `match_service.py`.) -/
structure Payload where
  enabled : Option Bool := none
  age_restricted : Option Bool := none
  sensitive : Option Bool := none
  blocked_keywords : Option (List Str) := none
  start_at : Option Str := none
  end_at : Option Str := none
  campaign_name : Option Str := none
  title : Option Str := none
  body : Option Str := none
  cta_text : Option Str := none
  landing_url : Option Str := none
  topics : Option (List Str) := none
  campaign_id : Option Str := none
  total_budget : Option ℚ := none
  daily_budget : Option ℚ := none
  pacing_mode : Option Str := none
  cpm : Option ℚ := none
  target_ctr : Option ℚ := none
deriving DecidableEq

/-- `MatchConstraints` (models/mcp_requests.py): only the two policy
booleans are consulted by the policy engine; both default to `false`.
(The targeting list fields feed only `TargetingEngine.build_filter`,
which no claim under study concerns, and are omitted.) -/
structure MatchConstraints where
  age_restricted_ok : Bool := false
  sensitive_ok : Bool := false
deriving DecidableEq

/-- `PlacementContext` (models/mcp_requests.py).  Passed through the
policy engine's surfaces but never consulted by them (placement is
annotate-only). -/
structure PlacementContext where
  placement : Str := []
  surface : Str := []
deriving DecidableEq

/-- `VectorHit` (sponsorstream/ports/vector_store.py, reconstructed from
its uses in policy_engine.py, match_service.py and
tests/test_policy_engine.py: the identifier triple, the raw similarity
score and the stored payload). -/
structure VectorHit where
  creative_id : Str
  campaign_id : Str
  advertiser_id : Str
  score : ℚ
  payload : Payload
deriving DecidableEq

namespace Policy

/-- `_parse_iso` (policy_engine.py:19) on the typed model, for payloads
whose schedule endpoints are strings or absent.  A falsy value (`None`
or `""`) parses to `none`; otherwise `fromiso` stands for
`datetime.fromisoformat` plus the UTC normalization, with `none`
modelling the caught `ValueError`. -/
def parse_iso (fromiso : Str → Option Int) : Option Str → Option Int
  | none => none
  | some s => if s.isEmpty then none else fromiso s

/-- `_schedule_active` (policy_engine.py:31): inactive when a parsed
`start_at` lies in the future or a parsed `end_at` lies in the past;
missing or unparseable endpoints are unbounded. -/
def schedule_active (fromiso : Str → Option Int) (meta : Payload) (now : Int) : Bool :=
  let sa := parse_iso fromiso meta.start_at
  let ea := parse_iso fromiso meta.end_at
  if (match sa with | some s => decide (now < s) | none => false) then false
  else if (match ea with | some e => decide (e < now) | none => false) then false
  else true

/-- `PolicyEngine._blocked_keywords_intersect` (policy_engine.py:100):
true when some blocked keyword, lower-cased, is a member of the context
token set or a substring of one of its tokens. -/
def blocked_keywords_intersect (hit : VectorHit) (context_text : Str) : Bool :=
  let blocked := hit.payload.blocked_keywords.getD []
  if blocked.isEmpty then false
  else
    let tokens := tokenize_context context_text
    blocked.any fun kw =>
      let kl := lowerStr kw
      tokens.any (fun t => t == kl) || tokens.any (fun t => strContains t kl)

/-- `PolicyEngine._allowed` (policy_engine.py:80): the boolean policy
gate, evaluating the five rules in their fixed order. -/
def allowedB (fromiso : Str → Option Int) (now : Int) (hit : VectorHit)
    (constraints : MatchConstraints) (context_text : Str) : Bool :=
  let meta := hit.payload
  if !(meta.enabled.getD true) then false
  else if meta.age_restricted.getD false && !constraints.age_restricted_ok then false
  else if meta.sensitive.getD false && !constraints.sensitive_ok then false
  else if blocked_keywords_intersect hit context_text then false
  else if !(schedule_active fromiso meta now) then false
  else true

/-- `PolicyEngine.reason` (policy_engine.py:58): the audit reason,
`"allowed"` or `"denied: <rule>"`, produced by the same ordered rule
chain as `_allowed`.  The `placement` argument is accepted and unused,
as in the source. -/
def reason (fromiso : Str → Option Int) (now : Int) (hit : VectorHit)
    (constraints : MatchConstraints) (_placement : PlacementContext)
    (context_text : Str) : String :=
  let meta := hit.payload
  if !(meta.enabled.getD true) then "denied: disabled"
  else if meta.age_restricted.getD false && !constraints.age_restricted_ok then
    "denied: age_restricted"
  else if meta.sensitive.getD false && !constraints.sensitive_ok then "denied: sensitive"
  else if blocked_keywords_intersect hit context_text then "denied: blocked_keywords"
  else if !(schedule_active fromiso meta now) then "denied: schedule_inactive"
  else "allowed"

/-- `PolicyEngine.apply` (policy_engine.py:44): keep, in order, exactly
the hits that pass `_allowed`. -/
def applyPolicy (fromiso : Str → Option Int) (now : Int) (hits : List VectorHit)
    (constraints : MatchConstraints) (placement : PlacementContext)
    (context_text : Str) : List VectorHit :=
  match hits with
  | [] => []
  | hit :: rest =>
    if allowedB fromiso now hit constraints context_text then
      hit :: applyPolicy fromiso now rest constraints placement context_text
    else applyPolicy fromiso now rest constraints placement context_text

/-- The §4.3 rule table as the specification writes it: the ordered list
of (violated?, outcome) pairs; the reason of a hit is the outcome of the
first violated rule, `"allowed"` when none is. -/
def firstViolation : List (Bool × String) → String
  | [] => "allowed"
  | (b, r) :: rest => if b then r else firstViolation rest

/-- Specification-side reason (written from the claim's words, for
comparison with `reason`): the outcome of the first violated rule in
the fixed order disabled → age_restricted → sensitive →
blocked_keywords → schedule_inactive. -/
def reasonSpec (fromiso : Str → Option Int) (now : Int) (hit : VectorHit)
    (constraints : MatchConstraints) (context_text : Str) : String :=
  firstViolation
    [ (!(hit.payload.enabled.getD true), "denied: disabled"),
      (hit.payload.age_restricted.getD false && !constraints.age_restricted_ok,
        "denied: age_restricted"),
      (hit.payload.sensitive.getD false && !constraints.sensitive_ok, "denied: sensitive"),
      (blocked_keywords_intersect hit context_text, "denied: blocked_keywords"),
      (!(schedule_active fromiso hit.payload now), "denied: schedule_inactive") ]

end Policy

namespace Pacing

/-- `PacingDecision` (modules/pacing/engine.py:11). -/
structure PacingDecision where
  allow : Bool
  weight : ℚ
  reason : String
deriving DecidableEq

/-- Python truthiness of the `campaign_id` payload entry: `not campaign_id`
is true for a missing key, `None`, or the empty string. -/
def campaignTruthy (p : Payload) : Bool :=
  match p.campaign_id with
  | some s => !s.isEmpty
  | none => false

/-- `payload.get("pacing_mode") or "even"`. -/
def pacingMode (p : Payload) : Str :=
  match p.pacing_mode with
  | some s => if s.isEmpty then "even".toList else s
  | none => "even".toList

/-- `total_budget is not None and spent_total >= total_budget`. -/
def totalExhausted (p : Payload) (spent_total : ℚ) : Bool :=
  match p.total_budget with
  | some tb => decide (tb ≤ spent_total)
  | none => false

/-- `daily_budget is not None and spent_today >= daily_budget`. -/
def dailyExhausted (p : Payload) (spent_today : ℚ) : Bool :=
  match p.daily_budget with
  | some db => decide (db ≤ spent_today)
  | none => false

/-- The pacing block of `evaluate` (engine.py:51–60): starting from
weight 1.0, when a positive daily budget's expected-by-now spend is
exceeded, throttle by the over-delivery ratio (unless accelerated),
floored at 0.1. -/
def pacedWeight (p : Payload) (spent_today elapsed : ℚ) (pm : Str) : ℚ :=
  match p.daily_budget with
  | some db =>
    if 0 < db then
      let expected := db * (elapsed / 86400)
      if 0 < expected ∧ expected < spent_today then
        if pm == "accelerated".toList then 1
        else max (1/10) (1 / (spent_today / expected))
      else 1
    else 1
  | none => 1

/-- The adaptive block of `evaluate` (engine.py:62–65): in adaptive mode
with a target engagement rate, an under-target recent average score
multiplies the weight by 0.8, floored at 0.1. -/
def adaptiveWeight (p : Payload) (recent_avg_score : ℚ) (pm : Str) (w : ℚ) : ℚ :=
  if pm == "adaptive".toList then
    match p.target_ctr with
    | some t => if recent_avg_score < t then max (1/10) (w * (8/10)) else w
    | none => w
  else w

/-- `BudgetPacingEngine.evaluate` (modules/pacing/engine.py:26).
The analytics store is abstracted by the values it returns to the
engine: `spent_today` (today's window spend), `spent_total` (all-time
spend) and `recent_avg_score` (the last-hour average score read only in
adaptive mode); `hasAnalytics = false` models `self._analytics is None`.
`elapsed` is `(now - today_start).total_seconds()`, the seconds since
00:00 UTC. -/
def evaluate (hasAnalytics : Bool) (p : Payload)
    (spent_today spent_total recent_avg_score elapsed : ℚ) : PacingDecision :=
  if !campaignTruthy p || !hasAnalytics then ⟨true, 1, "no_analytics"⟩
  else if totalExhausted p spent_total then ⟨false, 0, "total_budget_exhausted"⟩
  else if dailyExhausted p spent_today then ⟨false, 0, "daily_budget_exhausted"⟩
  else
    let weight := adaptiveWeight p recent_avg_score (pacingMode p)
      (pacedWeight p spent_today elapsed (pacingMode p))
    ⟨true, weight, if weight < 1 then "paced" else "within_budget"⟩

end Pacing

namespace MatchSvc

open Pacing

/-- `CreativeCandidate` (models/mcp_responses.py, fields as populated by
`MatchService._hit_to_candidate`). -/
structure CreativeCandidate where
  creative_id : Str
  campaign_id : Str
  advertiser_id : Str
  campaign_name : Str
  title : Str
  body : Str
  cta_text : Str
  landing_url : Str
  score : ℚ
  match_id : Str
  pacing_weight : ℚ
  pacing_reason : String
  boost_applied : ℚ
deriving DecidableEq

/-- `MatchService._hit_to_candidate` (match_service.py:216): the final
score is the clamp to `[0, 1]` of `hit.score * pacing_weight *
boost_factor`, applied after the full product.  `matchIdOf` stands for
`self._match_id.new_match_id`. -/
def hit_to_candidate (matchIdOf : Str → Str → Str) (request_id : Str) (hit : VectorHit)
    (pacing_weight : ℚ) (pacing_reason : String) (boost_factor : ℚ) : CreativeCandidate :=
  { creative_id := hit.creative_id
    campaign_id := hit.campaign_id
    advertiser_id := hit.advertiser_id
    campaign_name := hit.payload.campaign_name.getD []
    title := hit.payload.title.getD []
    body := hit.payload.body.getD []
    cta_text := hit.payload.cta_text.getD []
    landing_url := hit.payload.landing_url.getD []
    score := max 0 (min 1 (hit.score * pacing_weight * boost_factor))
    match_id := matchIdOf request_id hit.creative_id
    pacing_weight := pacing_weight
    pacing_reason := pacing_reason
    boost_applied := boost_factor }

/-- Insert-or-replace on an association list: the effect of
`boost_lookup[keyword_lower] = ...` on a Python dict (a repeated key
overwrites in place, a fresh key appends in insertion order). -/
def dictInsert (d : List (Str × ℚ)) (k : Str) (v : ℚ) : List (Str × ℚ) :=
  if d.any (fun p => p.1 == k) then d.map (fun p => if p.1 == k then (k, v) else p)
  else d ++ [(k, v)]

/-- The `boost_lookup` construction of `MatchService.match`
(match_service.py:96): lower-case each boost keyword and clamp its
factor to `[0.1, 2.0]`. -/
def boostLookup (boost_keywords : List (Str × ℚ)) : List (Str × ℚ) :=
  boost_keywords.foldl (fun d kv => dictInsert d (lowerStr kv.1) (max (1/10) (min 2 kv.2))) []

/-- The applicability test of the boost loop (match_service.py:148): an
(already lower-cased) keyword applies to a creative when it occurs as a
substring of the lower-cased title or body, or is an exact member of
the lower-cased topics list. -/
def boostApplicable (p : Payload) (kw : Str) : Bool :=
  strContains (lowerStr (p.title.getD [])) kw
    || strContains (lowerStr (p.body.getD [])) kw
    || ((p.topics.getD []).map lowerStr).any (fun t => t == kw)

/-- The per-hit boost computation of `MatchService.match`
(match_service.py:146): start from 1.0 and fold `max` over the factors
of the applicable keywords. -/
def boostFactorOf (lookup : List (Str × ℚ)) (p : Payload) : ℚ :=
  lookup.foldl (fun acc kv => if boostApplicable p kv.1 then max acc kv.2 else acc) 1

/-- The specification's description of the boost (written from the
claim's words, for comparison with `boostFactorOf`): the maximum over
the boost map of the clamped factors of the keywords applicable to the
creative, `none` when no keyword applies. -/
def applicableClampedMax (lookup : List (Str × ℚ)) (p : Payload) : Option ℚ :=
  ((lookup.filter (fun kv => boostApplicable p kv.1)).map (fun kv => kv.2)).max?

/-- The candidate-building loop of `MatchService.match`
(match_service.py:132): walk the policy-eligible hits in order; skip a
hit whose pacing decision denies; otherwise append the candidate built
from the hit, its pacing weight and reason, and its boost factor.
`pacingOf` stands for `self._pacing.evaluate`. -/
def buildCandidates (matchIdOf : Str → Str → Str) (request_id : Str)
    (pacingOf : Payload → PacingDecision) (lookup : List (Str × ℚ)) :
    List VectorHit → List CreativeCandidate
  | [] => []
  | hit :: rest =>
    let pd := pacingOf hit.payload
    if !pd.allow then buildCandidates matchIdOf request_id pacingOf lookup rest
    else
      hit_to_candidate matchIdOf request_id hit pd.weight pd.reason
          (boostFactorOf lookup hit.payload)
        :: buildCandidates matchIdOf request_id pacingOf lookup rest

/-- The candidates of the `MatchResponse` assembled by
`MatchService.match` (match_service.py:105–195): the policy filter
(`PolicyEngine.apply`) over the raw index hits, then the
pacing/boost/candidate loop.  The list is passed to the response
unchanged — nothing downstream reorders it. -/
def matchCandidates (fromiso : Str → Option Int) (now : Int)
    (matchIdOf : Str → Str → Str) (request_id : Str)
    (constraints : MatchConstraints) (placement : PlacementContext) (context_text : Str)
    (pacingOf : Payload → PacingDecision) (boost_keywords : List (Str × ℚ))
    (raw_hits : List VectorHit) : List CreativeCandidate :=
  buildCandidates matchIdOf request_id pacingOf (boostLookup boost_keywords)
    (Policy.applyPolicy fromiso now raw_hits constraints placement context_text)

end MatchSvc

namespace Qdrant

/-- `FilterOp` (domain/filters.py:10). -/
inductive FilterOp where
  | equals
  | any_of
  | all_of
  | not_equals
  | not_in
deriving DecidableEq

/-- The `value` of a `FieldFilter`: `str | list[str]`
(domain/filters.py:25). -/
inductive FilterValue where
  | scalar (s : Str)
  | listv (xs : List Str)
deriving DecidableEq

/-- `FieldFilter` (domain/filters.py:20). -/
structure FieldFilter where
  field : String
  op : FilterOp
  value : FilterValue
deriving DecidableEq

/-- `VectorFilter` (domain/filters.py:28). -/
structure VectorFilter where
  must : List FieldFilter := []
  must_not : List FieldFilter := []
deriving DecidableEq

/-- A value carried by a Qdrant `MatchValue` (a string, a boolean, or a
passed-through list, as `_translate_condition` forwards `f.value`
unchanged in its `equals`/`not_equals` branches). -/
inductive QVal where
  | str (s : Str)
  | boolean (b : Bool)
  | listOf (xs : List Str)
deriving DecidableEq

/-- The match clause of a Qdrant `FieldCondition`: `MatchValue(value=v)`
or `MatchAny(any=vs)`. -/
inductive QdrantMatch where
  | matchValue (v : QVal)
  | matchAny (vs : List Str)
deriving DecidableEq

/-- Qdrant `FieldCondition(key=..., match=...)`. -/
structure FieldCondition where
  key : String
  matchv : QdrantMatch
deriving DecidableEq

/-- Qdrant `Filter(must=..., must_not=...)`; either clause list may be
absent (`None`). -/
structure QdrantFilter where
  must : Option (List FieldCondition)
  must_not : Option (List FieldCondition)
deriving DecidableEq

/-- `f.value if isinstance(f.value, list) else [f.value]`. -/
def valueAsList : FilterValue → List Str
  | .scalar s => [s]
  | .listv xs => xs

/-- `f.value` forwarded as-is to `MatchValue`. -/
def valueAsQVal : FilterValue → QVal
  | .scalar s => .str s
  | .listv xs => .listOf xs

/-- `QdrantVectorStore._translate_condition`
(qdrant_vector_store.py:285): `equals` and `not_equals` become
`MatchValue` on the value; `any_of`, `not_in` and — notably — `all_of`
all become `MatchAny` over the listed values.  The `ValueError` branch
for an unsupported operator is unreachable: the five enum members are
all handled, and in particular no operator is rejected. -/
def translate_condition (f : FieldFilter) : FieldCondition :=
  match f.op with
  | .equals => ⟨f.field, .matchValue (valueAsQVal f.value)⟩
  | .any_of => ⟨f.field, .matchAny (valueAsList f.value)⟩
  | .not_equals => ⟨f.field, .matchValue (valueAsQVal f.value)⟩
  | .not_in => ⟨f.field, .matchAny (valueAsList f.value)⟩
  | .all_of => ⟨f.field, .matchAny (valueAsList f.value)⟩

/-- `QdrantVectorStore._translate_filter` (qdrant_vector_store.py:276):
translate both clause lists; an empty list becomes `None` (`must or
None`). -/
def translate_filter (vf : VectorFilter) : QdrantFilter :=
  let must := vf.must.map translate_condition
  let mustNot := vf.must_not.map translate_condition
  ⟨if must.isEmpty then none else some must,
   if mustNot.isEmpty then none else some mustNot⟩

/-- The `enabled = False` condition merged into every query. -/
def enabledFalseCond : FieldCondition := ⟨"enabled", .matchValue (.boolean false)⟩

/-- `QdrantVectorStore._ensure_enabled_filter`
(qdrant_vector_store.py:256): append `must_not enabled=False` to the
query filter, creating the filter when absent. -/
def ensure_enabled_filter : Option QdrantFilter → QdrantFilter
  | none => ⟨none, some [enabledFalseCond]⟩
  | some qf => ⟨qf.must, some ((qf.must_not.getD []) ++ [enabledFalseCond])⟩

/-- The query filter emitted by `QdrantVectorStore.query`
(qdrant_vector_store.py:55–74): the translated caller filter, then the
mandatory enabled clause.  The query vector and `top_k` do not enter
the filter construction. -/
def queryFilter (vf : VectorFilter) : QdrantFilter :=
  ensure_enabled_filter (some (translate_filter vf))

end Qdrant

namespace Dyn

/-!
The dynamically typed model of the policy engine, tracking Python's
runtime behaviour on arbitrarily shaped payload values.  Used to settle
the robustness claim about malformed payloads: here a payload entry may
hold a value of any runtime type, and the model records which operations
raise (`datetime.fromisoformat` on a non-string raises `TypeError` —
only `ValueError` is caught by `_parse_iso`; `.lower()` on a non-string
raises `AttributeError`; iterating a non-iterable raises `TypeError`).
-/

/-- A Python runtime value (the fragment reachable through index
payloads: `None`, booleans, integers, strings and lists). -/
inductive PyVal where
  | none
  | bool (b : Bool)
  | int (n : Int)
  | str (s : Str)
  | list (xs : List PyVal)

/-- A Python dict with string keys: the raw index payload. -/
abbrev PyDict := List (String × PyVal)

/-- The exceptions that can escape the policy engine in this model. -/
inductive PyErr where
  | typeError
  | attributeError
deriving DecidableEq

/-- Python truthiness. -/
def truthy : PyVal → Bool
  | .none => false
  | .bool b => b
  | .int n => n != 0
  | .str s => !s.isEmpty
  | .list xs => !xs.isEmpty

/-- `d.get(k)`: the stored value, `None` when the key is absent. -/
def dget (d : PyDict) (k : String) : PyVal :=
  match d.lookup k with
  | some v => v
  | Option.none => .none

/-- `d.get(k, default)`: the stored value (even a stored `None`), the
default only when the key is absent. -/
def dgetD (d : PyDict) (k : String) (dflt : PyVal) : PyVal :=
  match d.lookup k with
  | some v => v
  | Option.none => dflt

/-- `.lower()`: defined on strings, raises `AttributeError` otherwise. -/
def pyLower : PyVal → Except PyErr Str
  | .str s => .ok (lowerStr s)
  | _ => .error .attributeError

/-- `for x in v`: lists iterate their elements, strings iterate their
characters as one-character strings, everything else raises
`TypeError`. -/
def pyIter : PyVal → Except PyErr (List PyVal)
  | .list xs => .ok xs
  | .str s => .ok (s.map (fun c => PyVal.str [c]))
  | _ => .error .typeError

/-- `_parse_iso` (policy_engine.py:19) on a runtime value: a falsy value
returns `None`; `datetime.fromisoformat` on a non-string raises
`TypeError`, which the `except ValueError` clause does not catch; on a
string, a `ValueError` (modelled by `fromiso` returning `none`) is
caught and yields `None`. -/
def parse_iso (fromiso : Str → Option Int) (v : PyVal) : Except PyErr (Option Int) :=
  if !truthy v then .ok Option.none
  else
    match v with
    | .str s => .ok (fromiso s)
    | _ => .error .typeError

/-- `_schedule_active` (policy_engine.py:31) on a runtime payload. -/
def schedule_active (fromiso : Str → Option Int) (meta : PyDict) (now : Int) :
    Except PyErr Bool := do
  let sa ← parse_iso fromiso (dget meta "start_at")
  let ea ← parse_iso fromiso (dget meta "end_at")
  if (match sa with | some s => decide (now < s) | Option.none => false) then return false
  if (match ea with | some e => decide (e < now) | Option.none => false) then return false
  return true

/-- The keyword loop of `_blocked_keywords_intersect`: Python returns at
the first matching keyword, so a later malformed entry is only reached —
and only raises — when no earlier keyword matched. -/
def blockedLoop (tokens : List Str) : List PyVal → Except PyErr Bool
  | [] => .ok false
  | kw :: rest => do
    let kl ← pyLower kw
    if tokens.any (fun t => t == kl) then return true
    else if tokens.any (fun t => strContains t kl) then return true
    else blockedLoop tokens rest

/-- `PolicyEngine._blocked_keywords_intersect` (policy_engine.py:100) on
a runtime payload: `blocked = payload.get("blocked_keywords") or []`,
early return on falsy, then the keyword loop over the iterated value. -/
def blocked_keywords_intersect (meta : PyDict) (context_text : Str) : Except PyErr Bool :=
  let v := dget meta "blocked_keywords"
  if !truthy v then .ok false
  else do
    let kws ← pyIter v
    blockedLoop (tokenize_context context_text) kws

/-- `PolicyEngine._allowed` (policy_engine.py:80) on a runtime payload. -/
def allowed (fromiso : Str → Option Int) (now : Int) (meta : PyDict)
    (constraints : MatchConstraints) (context_text : Str) : Except PyErr Bool := do
  if !truthy (dgetD meta "enabled" (.bool true)) then return false
  if truthy (dgetD meta "age_restricted" (.bool false)) && !constraints.age_restricted_ok then
    return false
  if truthy (dgetD meta "sensitive" (.bool false)) && !constraints.sensitive_ok then
    return false
  let b ← blocked_keywords_intersect meta context_text
  if b then return false
  let act ← schedule_active fromiso meta now
  if !act then return false
  return true

/-- `PolicyEngine.apply` (policy_engine.py:44) on runtime payloads: an
exception raised while checking any hit aborts the whole call. -/
def applyPolicy (fromiso : Str → Option Int) (now : Int)
    (constraints : MatchConstraints) (context_text : Str) :
    List PyDict → Except PyErr (List PyDict)
  | [] => .ok []
  | meta :: rest => do
    let ok ← allowed fromiso now meta constraints context_text
    let tail ← applyPolicy fromiso now constraints context_text rest
    return if ok then meta :: tail else tail

end Dyn

/-! ## Supporting lemmas -/

theorem Policy.applyPolicy_eq_filter (fromiso : Str → Option Int) (now : Int)
    (hits : List VectorHit) (c : MatchConstraints) (pl : PlacementContext) (ctx : Str) :
    Policy.applyPolicy fromiso now hits c pl ctx
      = hits.filter (fun h => Policy.allowedB fromiso now h c ctx) := by
  induction hits with
  | nil => rfl
  | cons h t ih =>
    simp only [Policy.applyPolicy, List.filter_cons, ih]

theorem MatchSvc.buildCandidates_eq (mio : Str → Str → Str) (rid : Str)
    (pacingOf : Payload → Pacing.PacingDecision) (lookup : List (Str × ℚ))
    (l : List VectorHit) :
    MatchSvc.buildCandidates mio rid pacingOf lookup l
      = (l.filter (fun h => (pacingOf h.payload).allow)).map
          (fun h => MatchSvc.hit_to_candidate mio rid h (pacingOf h.payload).weight
            (pacingOf h.payload).reason (MatchSvc.boostFactorOf lookup h.payload)) := by
  induction l with
  | nil => rfl
  | cons h t ih =>
    simp only [MatchSvc.buildCandidates, List.filter_cons]
    cases hp : (pacingOf h.payload).allow <;> simp [hp, ih]

theorem Policy.allowedB_iff_reason (fromiso : Str → Option Int) (now : Int)
    (hit : VectorHit) (c : MatchConstraints) (pl : PlacementContext) (ctx : Str) :
    Policy.allowedB fromiso now hit c ctx = true
      ↔ Policy.reason fromiso now hit c pl ctx = "allowed" := by
  unfold Policy.allowedB Policy.reason
  cases h1 : hit.payload.enabled.getD true <;>
  cases h2 : hit.payload.age_restricted.getD false <;>
  cases h3 : c.age_restricted_ok <;>
  cases h4 : hit.payload.sensitive.getD false <;>
  cases h5 : c.sensitive_ok <;>
  cases h6 : Policy.blocked_keywords_intersect hit ctx <;>
  cases h7 : Policy.schedule_active fromiso hit.payload now <;>
  simp [h1, h2, h3, h4, h5, h6, h7]

theorem foldl_max_shift (t : List ℚ) : ∀ a b : ℚ, t.foldl max (max a b) = max a (t.foldl max b) := by
  induction t with
  | nil => intro a b; rfl
  | cons y t2 ih =>
    intro a b
    simp only [List.foldl]
    rw [max_assoc, ih]

theorem MatchSvc.boostFold_eq (p : Payload) (l : List (Str × ℚ)) : ∀ acc : ℚ,
    l.foldl (fun a kv => if MatchSvc.boostApplicable p kv.1 then max a kv.2 else a) acc
      = ((l.filter (fun kv => MatchSvc.boostApplicable p kv.1)).map (fun kv => kv.2)).foldl
          max acc := by
  induction l with
  | nil => intro acc; rfl
  | cons kv t ih =>
    intro acc
    simp only [List.foldl, List.filter_cons]
    cases h : MatchSvc.boostApplicable p kv.1 <;> simp [h, ih]

/-- The source's fold (`boost_factor = 1.0`, then `max` over applicable
factors) equals: 1 when no keyword applies, `max 1` of the maximum
applicable factor otherwise. -/
theorem MatchSvc.boostFactorOf_eq (lookup : List (Str × ℚ)) (p : Payload) :
    MatchSvc.boostFactorOf lookup p
      = match MatchSvc.applicableClampedMax lookup p with
        | some m => max 1 m
        | none => 1 := by
  unfold MatchSvc.boostFactorOf MatchSvc.applicableClampedMax
  rw [MatchSvc.boostFold_eq]
  cases hfl : (lookup.filter (fun kv => MatchSvc.boostApplicable p kv.1)).map
      (fun kv => kv.2) with
  | nil => rfl
  | cons x xs =>
    simp only [List.max?]
    exact foldl_max_shift xs 1 x

theorem MatchSvc.dictInsert_mem (d : List (Str × ℚ)) (k : Str) (v : ℚ) :
    ∀ kv ∈ MatchSvc.dictInsert d k v, kv ∈ d ∨ kv.2 = v := by
  intro kv hkv
  unfold MatchSvc.dictInsert at hkv
  split at hkv
  · obtain ⟨q, hq, heq⟩ := List.mem_map.mp hkv
    by_cases hcond : q.1 == k
    · right
      rw [if_pos hcond] at heq
      simp [← heq]
    · left
      rw [if_neg hcond] at heq
      exact heq ▸ hq
  · rcases List.mem_append.mp hkv with h | h
    · exact Or.inl h
    · right
      simp only [List.mem_singleton] at h
      simp [h]

/-- Every factor in the boost lookup has been clamped to `[0.1, 2.0]`. -/
theorem MatchSvc.boostLookup_bounds (bk : List (Str × ℚ)) :
    ∀ kv ∈ MatchSvc.boostLookup bk, 1/10 ≤ kv.2 ∧ kv.2 ≤ 2 := by
  unfold MatchSvc.boostLookup
  suffices h : ∀ (l : List (Str × ℚ)) (d : List (Str × ℚ)),
      (∀ kv ∈ d, 1/10 ≤ kv.2 ∧ kv.2 ≤ 2) →
      ∀ kv ∈ l.foldl (fun d kv => MatchSvc.dictInsert d (lowerStr kv.1)
        (max (1/10) (min 2 kv.2))) d, 1/10 ≤ kv.2 ∧ kv.2 ≤ 2 by
    exact h bk [] (by intro kv hkv; simp at hkv)
  intro l
  induction l with
  | nil => intro d hd kv hkv; exact hd kv hkv
  | cons x t ih =>
    intro d hd kv hkv
    refine ih _ ?_ kv hkv
    intro q hq
    rcases MatchSvc.dictInsert_mem _ _ _ q hq with h | h
    · exact hd q h
    · constructor
      · rw [h]; exact le_max_left _ _
      · rw [h]
        exact max_le (by norm_num) (min_le_left _ _)

theorem foldl_max_le (l : List ℚ) (hl : ∀ x ∈ l, x ≤ 2) :
    ∀ acc : ℚ, 1 ≤ acc → acc ≤ 2 → 1 ≤ l.foldl max acc ∧ l.foldl max acc ≤ 2 := by
  induction l with
  | nil => intro acc h1 h2; exact ⟨h1, h2⟩
  | cons x t ih =>
    intro acc h1 h2
    refine ih (fun y hy => hl y (List.mem_cons_of_mem _ hy)) (max acc x) ?_ ?_
    · exact le_trans h1 (le_max_left _ _)
    · exact max_le h2 (hl x (List.mem_cons_self _ _))

theorem Pacing.pacedWeight_bounds (p : Payload) (st el : ℚ) (pm : Str) :
    1/10 ≤ Pacing.pacedWeight p st el pm ∧ Pacing.pacedWeight p st el pm ≤ 1 := by
  unfold Pacing.pacedWeight
  cases p.daily_budget with
  | none => norm_num
  | some db =>
    simp only
    split_ifs with hdb hexp hacc
    · norm_num
    · constructor
      · exact le_max_left _ _
      · refine max_le (by norm_num) ?_
        have hqpos : (0:ℚ) < db * (el / 86400) := hexp.1
        have hspos : (0:ℚ) < st := lt_trans hqpos hexp.2
        have hratio1 : (1:ℚ) < st / (db * (el / 86400)) :=
          (one_lt_div hqpos).mpr hexp.2
        have hrpos : (0:ℚ) < st / (db * (el / 86400)) := lt_trans one_pos hratio1
        rw [div_le_one hrpos]
        exact le_of_lt hratio1
    · norm_num
    · norm_num

theorem Pacing.adaptiveWeight_bounds (p : Payload) (ras : ℚ) (pm : Str) (w : ℚ)
    (h1 : 1/10 ≤ w) (h2 : w ≤ 1) :
    1/10 ≤ Pacing.adaptiveWeight p ras pm w ∧ Pacing.adaptiveWeight p ras pm w ≤ 1 := by
  unfold Pacing.adaptiveWeight
  split_ifs with hpm
  · cases p.target_ctr with
    | none => exact ⟨h1, h2⟩
    | some t =>
      simp only
      split_ifs with hlt
      · constructor
        · exact le_max_left _ _
        · refine max_le (by norm_num) ?_
          calc w * (8/10) ≤ 1 * (8/10) := by
                exact mul_le_mul_of_nonneg_right h2 (by norm_num)
            _ ≤ 1 := by norm_num
      · exact ⟨h1, h2⟩
  · exact ⟨h1, h2⟩

/-! ## Shared concrete fixtures (used by witnesses and counterexamples) -/

/-- A `fromisoformat` model under which nothing parses (no scheduled
fixture carries endpoints, so the choice is immaterial). -/
def noIso : Str → Option Int := fun _ => none

/-- A degenerate match-id provider for concrete runs. -/
def noId : Str → Str → Str := fun _ _ => []

/-- A pacing engine stub that always admits at full weight. -/
def alwaysWithinBudget : Payload → Pacing.PacingDecision := fun _ => ⟨true, 1, "within_budget"⟩

/-- Scenario S3's creative: blocked keyword `"gamb"`. -/
def gamblingHit : VectorHit :=
  ⟨"cr-1".toList, "ca-1".toList, "ad-1".toList, 9/10,
    { blocked_keywords := some ["gamb".toList] }⟩

/-- The boosted keyword of scenario S7. -/
def kwPython : Str := "python".toList

/-- Scenario S6/S7's boost map: factor 2 on `"python"`. -/
def boostMapS7 : List (Str × ℚ) := [(kwPython, 2)]

/-- Scenario S7's creative: raw score 0.9, title containing the boosted
keyword `"python"`. -/
def hitS7 : VectorHit :=
  ⟨"cr-7".toList, "ca-7".toList, "ad-7".toList, 9/10, { title := some "python".toList }⟩

/-- The candidate produced for `hitS7` at pacing weight 1 and boost 2. -/
def candS7 : MatchSvc.CreativeCandidate :=
  MatchSvc.hit_to_candidate noId [] hitS7 1 "within_budget" 2

/-- A creative whose title contains the boosted keyword `"sale"`. -/
def saleHit : VectorHit :=
  ⟨"cr-8".toList, "ca-8".toList, "ad-8".toList, 1/2, { title := some "big sale".toList }⟩

/-- The lower-cased form of the boosted keyword `"Sale"`. -/
def kwSale : Str := "sale".toList

/-- A boost map whose single factor clamps to 0.5, below the default 1. -/
def saleBoostMap : List (Str × ℚ) := [("Sale".toList, 1/2)]

/-- The candidate produced for `saleHit` at pacing weight 1 and boost 1
(the clamped factor 0.5 loses to the starting value 1 in the fold). -/
def candSale : MatchSvc.CreativeCandidate :=
  MatchSvc.hit_to_candidate noId [] saleHit 1 "within_budget" 1

/-- The `all_of` predicate used to exhibit the adapter's translation. -/
def allOfPredicate : Qdrant.FieldFilter :=
  ⟨"topics", Qdrant.FilterOp.all_of, Qdrant.FilterValue.listv ["a".toList, "b".toList]⟩

/-! ### Evaluation of the concrete runs -/

theorem s7_apply_eq : Policy.applyPolicy noIso 0 [hitS7] {} {} [] = [hitS7] := by
  have h : Policy.allowedB noIso 0 hitS7 {} [] = true := by decide
  simp [Policy.applyPolicy, h]

theorem s7_lookup_eq : MatchSvc.boostLookup boostMapS7 = [(kwPython, (2:ℚ))] := by
  show MatchSvc.dictInsert [] (lowerStr kwPython) (max (1/10) (min 2 2)) = [(kwPython, (2:ℚ))]
  rw [show lowerStr kwPython = kwPython from by decide,
    show max ((1:ℚ)/10) (min 2 2) = 2 from by norm_num]
  rfl

theorem s7_boost_eq :
    MatchSvc.boostFactorOf (MatchSvc.boostLookup boostMapS7) hitS7.payload = 2 := by
  rw [s7_lookup_eq]
  have happl : MatchSvc.boostApplicable hitS7.payload kwPython = true := by decide
  simp [MatchSvc.boostFactorOf, happl, show max (1:ℚ) 2 = 2 from by norm_num]

theorem s7_run_eq :
    MatchSvc.matchCandidates noIso 0 noId [] {} {} []
        alwaysWithinBudget boostMapS7 [hitS7] = [candS7] := by
  unfold MatchSvc.matchCandidates
  rw [s7_apply_eq]
  simp [MatchSvc.buildCandidates, alwaysWithinBudget, s7_boost_eq, candS7]

theorem sale_apply_eq : Policy.applyPolicy noIso 0 [saleHit] {} {} [] = [saleHit] := by
  have h : Policy.allowedB noIso 0 saleHit {} [] = true := by decide
  simp [Policy.applyPolicy, h]

theorem sale_lookup_eq :
    MatchSvc.boostLookup saleBoostMap = [(kwSale, (1:ℚ)/2)] := by
  show MatchSvc.dictInsert [] (lowerStr ("Sale".toList)) (max (1/10) (min 2 (1/2)))
    = [(kwSale, (1:ℚ)/2)]
  rw [show lowerStr ("Sale".toList) = kwSale from by decide,
    show max ((1:ℚ)/10) (min 2 (1/2)) = 1/2 from by norm_num]
  rfl

theorem sale_applicable : MatchSvc.boostApplicable saleHit.payload kwSale = true := by
  decide

theorem sale_boost_eq :
    MatchSvc.boostFactorOf (MatchSvc.boostLookup saleBoostMap) saleHit.payload = 1 := by
  rw [sale_lookup_eq]
  simp [MatchSvc.boostFactorOf, sale_applicable, show max (1:ℚ) (1/2) = 1 from by norm_num]
  norm_num

theorem sale_run_eq :
    MatchSvc.matchCandidates noIso 0 noId [] {} {} []
        alwaysWithinBudget saleBoostMap [saleHit] = [candSale] := by
  unfold MatchSvc.matchCandidates
  rw [sale_apply_eq]
  simp [MatchSvc.buildCandidates, alwaysWithinBudget, sale_boost_eq, candSale]

/-! ## The claims -/

/-- **C2.** For every retrieved hit, constraints, placement, context and
clock reading, the audit reason returned by `PolicyEngine.reason` equals
the outcome of the first violated rule in the fixed order disabled →
age_restricted → sensitive → blocked_keywords → schedule_inactive, and
is `"allowed"` exactly when no rule is violated. -/
theorem reason_is_first_violated_rule (fromiso : Str → Option Int) (now : Int)
    (hit : VectorHit) (c : MatchConstraints) (pl : PlacementContext) (ctx : Str) :
    Policy.reason fromiso now hit c pl ctx = Policy.reasonSpec fromiso now hit c ctx := rfl

/-- **C10.** Under one clock reading, the two policy surfaces agree: a
hit is kept by `PolicyEngine.apply` iff `PolicyEngine.reason` answers
`"allowed"` for it under the same inputs. -/
theorem apply_iff_reason_allowed (fromiso : Str → Option Int) (now : Int)
    (hits : List VectorHit) (c : MatchConstraints) (pl : PlacementContext) (ctx : Str)
    (h : VectorHit) :
    h ∈ Policy.applyPolicy fromiso now hits c pl ctx
      ↔ h ∈ hits ∧ Policy.reason fromiso now h c pl ctx = "allowed" := by
  rw [Policy.applyPolicy_eq_filter, List.mem_filter]
  exact and_congr_right fun _ => Policy.allowedB_iff_reason fromiso now h c pl ctx

/-- **C7.** The blocked-keyword test holds iff some blocked keyword,
lower-cased, is an exact member of the lower-cased whitespace-split
token set of the original context, or a substring of one of its tokens;
in particular context "gambling games" against blocked keyword "gamb"
is denied with reason `blocked_keywords`. -/
theorem blocked_keywords_semantics (hit : VectorHit) (ctx : Str)
    (fromiso : Str → Option Int) (now : Int) (pl : PlacementContext) :
    (Policy.blocked_keywords_intersect hit ctx = true
      ↔ ∃ kw ∈ hit.payload.blocked_keywords.getD [],
          lowerStr kw ∈ tokenize_context ctx
            ∨ ∃ t ∈ tokenize_context ctx, strContains t (lowerStr kw) = true)
    ∧ Policy.reason fromiso now gamblingHit {} pl ("gambling games".toList)
        = "denied: blocked_keywords" := by
  constructor
  · unfold Policy.blocked_keywords_intersect
    cases hb : hit.payload.blocked_keywords.getD [] with
    | nil => simp
    | cons k ks =>
      simp [List.any_eq_true]
  · rfl

/-- **C9** (the claim is refuted by this run): `PolicyEngine.apply` can
throw on a malformed payload.  On the payload `{"start_at": 5}` the
schedule parse reaches `datetime.fromisoformat(5)`, which raises
`TypeError`; `_parse_iso` catches only `ValueError`, so — under every
clock reading and every parse function — `apply` propagates the
exception instead of treating the unparseable endpoint as unbounded. -/
theorem apply_raises_on_int_schedule (fromiso : Str → Option Int) (now : Int) :
    Dyn.applyPolicy fromiso now {} [] [[("start_at", Dyn.PyVal.int 5)]]
      = Except.error Dyn.PyErr.typeError := rfl

/-- **C5** (the claim is refuted by this input): the adapter translates
`all_of` to a `MatchAny` condition — the permissive any-of containment
— identical to the `any_of` translation, and does not reject the
predicate. -/
theorem all_of_translated_permissive :
    Qdrant.translate_condition allOfPredicate
        = ⟨"topics", Qdrant.QdrantMatch.matchAny ["a".toList, "b".toList]⟩
      ∧ Qdrant.translate_condition allOfPredicate
        = Qdrant.translate_condition ⟨"topics", Qdrant.FilterOp.any_of,
            Qdrant.FilterValue.listv ["a".toList, "b".toList]⟩ := ⟨rfl, rfl⟩

/-- **C6.** Every query filter the adapter emits carries the
`enabled = false` condition in its `must_not` set — also when the
caller's filter expression is empty — so a disabled creative is never
retrievable through `query`. -/
theorem query_filter_excludes_disabled (vf : Qdrant.VectorFilter) :
    (Qdrant.queryFilter vf).must_not
        = some (((Qdrant.translate_filter vf).must_not.getD [])
            ++ [Qdrant.enabledFalseCond])
      ∧ Qdrant.enabledFalseCond ∈ (Qdrant.queryFilter vf).must_not.getD [] := by
  constructor
  · rfl
  · simp [Qdrant.queryFilter, Qdrant.ensure_enabled_filter]

/-- **C4.** The response's candidate list is exactly the index's hit
list, in index order, with the policy-denied and then the pacing-denied
hits removed, each survivor mapped to its candidate — in particular no
re-sort by the final score ever happens. -/
theorem response_order_is_index_order (fromiso : Str → Option Int) (now : Int)
    (mio : Str → Str → Str) (rid : Str) (c : MatchConstraints) (pl : PlacementContext)
    (ctx : Str) (pacingOf : Payload → Pacing.PacingDecision) (bk : List (Str × ℚ))
    (hits : List VectorHit) :
    MatchSvc.matchCandidates fromiso now mio rid c pl ctx pacingOf bk hits
      = ((hits.filter (fun h => Policy.allowedB fromiso now h c ctx)).filter
          (fun h => (pacingOf h.payload).allow)).map
          (fun h => MatchSvc.hit_to_candidate mio rid h (pacingOf h.payload).weight
            (pacingOf h.payload).reason
            (MatchSvc.boostFactorOf (MatchSvc.boostLookup bk) h.payload)) := by
  unfold MatchSvc.matchCandidates
  rw [Policy.applyPolicy_eq_filter, MatchSvc.buildCandidates_eq]

/-- **C1.** Every candidate the match pipeline admits carries the score
`clamp([0,1], raw_score × pacing_weight × boost)`, the clamp applied
after the full product; consequently `0 ≤ score ≤ 1`. -/
theorem candidate_score_clamped (fromiso : Str → Option Int) (now : Int)
    (mio : Str → Str → Str) (rid : Str) (c : MatchConstraints) (pl : PlacementContext)
    (ctx : Str) (pacingOf : Payload → Pacing.PacingDecision) (bk : List (Str × ℚ))
    (hits : List VectorHit) (cand : MatchSvc.CreativeCandidate)
    (hmem : cand ∈ MatchSvc.matchCandidates fromiso now mio rid c pl ctx pacingOf bk hits) :
    (0 ≤ cand.score ∧ cand.score ≤ 1)
    ∧ ∃ h ∈ hits, h.creative_id = cand.creative_id
        ∧ cand.score
            = max 0 (min 1 (h.score * cand.pacing_weight * cand.boost_applied)) := by
  unfold MatchSvc.matchCandidates at hmem
  rw [Policy.applyPolicy_eq_filter, MatchSvc.buildCandidates_eq] at hmem
  obtain ⟨h, hh, rfl⟩ := List.mem_map.mp hmem
  have hh1 : h ∈ hits := (List.mem_filter.mp (List.mem_filter.mp hh).1).1
  exact ⟨⟨le_max_left _ _, max_le (by norm_num) (min_le_left _ _)⟩, h, hh1, rfl, rfl⟩

/-- Witness for C1: scenario S7 — one hit of raw score 0.9, pacing
weight 1, boost 2; the admitted candidate's score is exactly 1. -/
theorem candidate_score_clamped_witness :
    candS7 ∈ MatchSvc.matchCandidates noIso 0 noId [] {} {} []
        alwaysWithinBudget boostMapS7 [hitS7]
    ∧ ((0 ≤ candS7.score ∧ candS7.score ≤ 1)
        ∧ ∃ h ∈ [hitS7], h.creative_id = candS7.creative_id
            ∧ candS7.score
                = max 0 (min 1 (h.score * candS7.pacing_weight * candS7.boost_applied)))
    ∧ candS7.score = 1 := by
  have hmem : candS7 ∈ MatchSvc.matchCandidates noIso 0 noId [] {} {} []
      alwaysWithinBudget boostMapS7 [hitS7] := by
    rw [s7_run_eq]
    exact List.mem_singleton.mpr rfl
  refine ⟨hmem,
    candidate_score_clamped noIso 0 noId [] {} {} [] alwaysWithinBudget
      boostMapS7 [hitS7] candS7 hmem, ?_⟩
  show max 0 (min 1 (hitS7.score * 1 * 2)) = 1
  norm_num [hitS7, max_def, min_def]

/-- **C3.** When the analytics store is present and the payload has a
(truthy) campaign id, the pacing engine denies with weight 0 and reason
`total_budget_exhausted` if the total budget is set and exhausted, else
denies with weight 0 and reason `daily_budget_exhausted` if the daily
budget is set and today's spend meets it, and otherwise admits with a
weight in `[0.1, 1.0]`, the reason being `"paced"` exactly when the
weight is below 1 and `"within_budget"` otherwise. -/
theorem pacing_decision_spec (p : Payload) (st sTot ras el : ℚ)
    (hc : Pacing.campaignTruthy p = true) :
    (Pacing.totalExhausted p sTot = true →
      Pacing.evaluate true p st sTot ras el = ⟨false, 0, "total_budget_exhausted"⟩)
    ∧ (Pacing.totalExhausted p sTot = false → Pacing.dailyExhausted p st = true →
      Pacing.evaluate true p st sTot ras el = ⟨false, 0, "daily_budget_exhausted"⟩)
    ∧ (Pacing.totalExhausted p sTot = false → Pacing.dailyExhausted p st = false →
      (Pacing.evaluate true p st sTot ras el).allow = true
      ∧ 1/10 ≤ (Pacing.evaluate true p st sTot ras el).weight
      ∧ (Pacing.evaluate true p st sTot ras el).weight ≤ 1
      ∧ (Pacing.evaluate true p st sTot ras el).reason
          = (if (Pacing.evaluate true p st sTot ras el).weight < 1 then "paced"
             else "within_budget")) := by
  have hpw := Pacing.pacedWeight_bounds p st el (Pacing.pacingMode p)
  have haw := Pacing.adaptiveWeight_bounds p ras (Pacing.pacingMode p) _ hpw.1 hpw.2
  refine ⟨fun h1 => ?_, fun h1 h2 => ?_, fun h1 h2 => ?_⟩
  · simp [Pacing.evaluate, hc, h1]
  · simp [Pacing.evaluate, hc, h1, h2]
  · have hres : Pacing.evaluate true p st sTot ras el
        = ⟨true, Pacing.adaptiveWeight p ras (Pacing.pacingMode p)
            (Pacing.pacedWeight p st el (Pacing.pacingMode p)),
          if Pacing.adaptiveWeight p ras (Pacing.pacingMode p)
              (Pacing.pacedWeight p st el (Pacing.pacingMode p)) < 1
          then "paced" else "within_budget"⟩ := by
      simp [Pacing.evaluate, hc, h1, h2]
    rw [hres]
    exact ⟨rfl, haw.1, haw.2, rfl⟩

/-- Witness for C3: a campaign with analytics present and no budgets is
admitted at weight 1 with reason `within_budget`. -/
theorem pacing_decision_spec_witness :
    Pacing.campaignTruthy { campaign_id := some ("c1".toList) } = true
    ∧ ((Pacing.totalExhausted { campaign_id := some ("c1".toList) } 0 = true →
        Pacing.evaluate true { campaign_id := some ("c1".toList) } 0 0 0 0
          = ⟨false, 0, "total_budget_exhausted"⟩)
      ∧ (Pacing.totalExhausted { campaign_id := some ("c1".toList) } 0 = false →
          Pacing.dailyExhausted { campaign_id := some ("c1".toList) } 0 = true →
        Pacing.evaluate true { campaign_id := some ("c1".toList) } 0 0 0 0
          = ⟨false, 0, "daily_budget_exhausted"⟩)
      ∧ (Pacing.totalExhausted { campaign_id := some ("c1".toList) } 0 = false →
          Pacing.dailyExhausted { campaign_id := some ("c1".toList) } 0 = false →
        (Pacing.evaluate true { campaign_id := some ("c1".toList) } 0 0 0 0).allow = true
        ∧ 1/10 ≤ (Pacing.evaluate true { campaign_id := some ("c1".toList) } 0 0 0 0).weight
        ∧ (Pacing.evaluate true { campaign_id := some ("c1".toList) } 0 0 0 0).weight ≤ 1
        ∧ (Pacing.evaluate true { campaign_id := some ("c1".toList) } 0 0 0 0).reason
            = (if (Pacing.evaluate true { campaign_id := some ("c1".toList) } 0 0 0 0).weight < 1
               then "paced" else "within_budget"))) :=
  ⟨by decide, pacing_decision_spec { campaign_id := some ("c1".toList) } 0 0 0 0 (by decide)⟩

/-- **C8** counterexample: with boost map `{"Sale": 0.5}` and a creative
whose title contains "sale", the admitted candidate's boost_applied is
1, while the maximum of its applicable clamped factors is 0.5 — so
boost_applied does not equal the maximum of the applicable clamped
factors, as the claim states it. -/
theorem boost_applied_not_applicable_max :
    (MatchSvc.matchCandidates noIso 0 noId [] {} {} [] alwaysWithinBudget
        saleBoostMap [saleHit]).map (fun c => c.boost_applied) = [1]
    ∧ MatchSvc.applicableClampedMax (MatchSvc.boostLookup saleBoostMap) saleHit.payload
        = some (1/2)
    ∧ (1 : ℚ) ≠ 1/2 := by
  refine ⟨?_, ?_, by norm_num⟩
  · rw [sale_run_eq]
    rfl
  · unfold MatchSvc.applicableClampedMax
    rw [sale_lookup_eq]
    rw [show List.filter (fun kv => MatchSvc.boostApplicable saleHit.payload kv.1)
        [(kwSale, (1:ℚ)/2)] = [(kwSale, (1:ℚ)/2)] from by simp [sale_applicable]]
    rfl

/-- **C8** (amended): every admitted candidate's boost_applied is the
maximum of 1 and its applicable clamped factors — factors below 1 never
lower the boost — hence lies in `[1, 2]`, and equals 1 when no keyword
applies. -/
theorem boost_applied_max_with_floor (fromiso : Str → Option Int) (now : Int)
    (mio : Str → Str → Str) (rid : Str) (c : MatchConstraints) (pl : PlacementContext)
    (ctx : Str) (pacingOf : Payload → Pacing.PacingDecision) (bk : List (Str × ℚ))
    (hits : List VectorHit) (cand : MatchSvc.CreativeCandidate)
    (hmem : cand ∈ MatchSvc.matchCandidates fromiso now mio rid c pl ctx pacingOf bk hits) :
    (1 ≤ cand.boost_applied ∧ cand.boost_applied ≤ 2)
    ∧ ∃ h ∈ hits,
        cand.boost_applied
          = (match MatchSvc.applicableClampedMax (MatchSvc.boostLookup bk) h.payload with
             | some m => max 1 m
             | none => 1)
        ∧ (MatchSvc.applicableClampedMax (MatchSvc.boostLookup bk) h.payload = none →
            cand.boost_applied = 1) := by
  unfold MatchSvc.matchCandidates at hmem
  rw [Policy.applyPolicy_eq_filter, MatchSvc.buildCandidates_eq] at hmem
  obtain ⟨h, hh, rfl⟩ := List.mem_map.mp hmem
  have hh1 : h ∈ hits := (List.mem_filter.mp (List.mem_filter.mp hh).1).1
  have hbounds : 1 ≤ MatchSvc.boostFactorOf (MatchSvc.boostLookup bk) h.payload
      ∧ MatchSvc.boostFactorOf (MatchSvc.boostLookup bk) h.payload ≤ 2 := by
    unfold MatchSvc.boostFactorOf
    rw [MatchSvc.boostFold_eq]
    refine foldl_max_le _ ?_ 1 le_rfl (by norm_num)
    intro x hx
    obtain ⟨kv, hkv, rfl⟩ := List.mem_map.mp hx
    exact (MatchSvc.boostLookup_bounds bk kv (List.mem_of_mem_filter hkv)).2
  refine ⟨hbounds, h, hh1, MatchSvc.boostFactorOf_eq _ _, fun hnone => ?_⟩
  show MatchSvc.boostFactorOf (MatchSvc.boostLookup bk) h.payload = 1
  rw [MatchSvc.boostFactorOf_eq, hnone]

/-- Witness for C8: the S7 run — boost map `{"python": 2}`, title
containing "python" — yields boost_applied 2 = max 1 2 within bounds. -/
theorem boost_applied_max_with_floor_witness :
    candS7 ∈ MatchSvc.matchCandidates noIso 0 noId [] {} {} []
        alwaysWithinBudget boostMapS7 [hitS7]
    ∧ ((1 ≤ candS7.boost_applied ∧ candS7.boost_applied ≤ 2)
      ∧ ∃ h ∈ [hitS7],
          candS7.boost_applied
            = (match MatchSvc.applicableClampedMax
                  (MatchSvc.boostLookup boostMapS7) h.payload with
               | some m => max 1 m
               | none => 1)
          ∧ (MatchSvc.applicableClampedMax
                (MatchSvc.boostLookup boostMapS7) h.payload = none →
              candS7.boost_applied = 1)) := by
  have hmem : candS7 ∈ MatchSvc.matchCandidates noIso 0 noId [] {} {} []
      alwaysWithinBudget boostMapS7 [hitS7] := by
    rw [s7_run_eq]
    exact List.mem_singleton.mpr rfl
  exact ⟨hmem,
    boost_applied_max_with_floor noIso 0 noId [] {} {} [] alwaysWithinBudget
      boostMapS7 [hitS7] candS7 hmem⟩

end SponsorStream
